import Mathlib

/-!
# Fletch VM interpreter core — shallow embedding

Definitions translated from `src/vm/interpreter.cc` and `src/vm/ffi.cc` of
the fletch repository, together with theorems checking the specification's
claims about them.  External collaborators that are declared but not part
of the sampled sources (process.h, object.h, program.h, selectors.h,
bytecodes.h, the heap allocator and the stack walker) appear either as
parameters of the definitions or as definitions whose doc comment starts
with `Modelled from the spec:`.
-/

namespace Fletch

/-- Machine-word values as the interpreter sees them: tagged small
integers, heap references (identified by address), and raw bytecode
addresses that live on the stack across calls (pushed by SaveState and
PushReturnAddress). -/
inductive Obj where
  | smi (v : Int)
  | ref (a : Nat)
  | retAddr (pc : Nat)
  deriving DecidableEq, Repr

instance : Inhabited Obj := ⟨.smi 0⟩

/-- Symbolic IEEE-754 double values carrying exactly the distinctions the C
expressions `isnan(d)` and `d1 == d2` in HandleIdentical observe: NaN,
signed zeros, signed infinities, and other finite values represented by an
integer index (two such doubles are IEEE-equal iff the index agrees; the
index never denotes zero, which has its own constructor). -/
inductive FP where
  | nan
  | zero (neg : Bool)
  | inf (neg : Bool)
  | finite (v : Int)
  deriving DecidableEq, Repr

/-- Semantics of C `isnan` on the symbolic doubles. -/
def fpIsNan : FP → Bool
  | .nan => true
  | _ => false

/-- Semantics of the C comparison `d1 == d2` on symbolic doubles: NaN is
unequal to everything (itself included), `+0.0 == -0.0` holds, and other
values compare by the number they denote. -/
def fpEq : FP → FP → Bool
  | .nan, _ => false
  | _, .nan => false
  | .zero _, .zero _ => true
  | .inf a, .inf b => a == b
  | .finite a, .finite b => a == b
  | _, _ => false

/-- Heap objects the sampled interpreter code inspects: instances (class
id, fields, immutability bit), boxed one-slot cells, doubles, boxed 64-bit
integers, and other heap objects (strings etc.) carrying just a class. -/
inductive HeapVal where
  | inst (classId : Nat) (fields : List Obj) (immut : Bool)
  | boxed (value : Obj)
  | double (value : FP)
  | largeInt (value : Int)
  | plain (classId : Nat)

/-- Heap: contents for every address. -/
def Heap : Type := Nat → HeapVal

/-- Class descriptor slice used by the Allocate opcodes: its id and its
instance-field count. -/
structure ClassInfo where
  id : Nat
  numFields : Nat
  deriving DecidableEq, Repr

/-- Program-global singletons and tables the engine consumes (program.h is
an external collaborator; the fields record exactly the accessors the
sampled code calls). -/
structure Program where
  nullObj : Obj
  trueObj : Obj
  falseObj : Obj
  smiClassId : Nat
  boxedClassId : Nat
  doubleClassId : Nat
  largeIntClassId : Nat
  objectFromFailure : Nat → Obj
  class_at : Nat → ClassInfo

/-- Cached interpreter working state: the bytecode pointer `bcp`, the
operand stack with the top of stack first, the heap, and a counter of
garbage collections run (to observe that a retry really collected). -/
structure VMState where
  bcp : Nat
  stack : List Obj
  heap : Heap
  gcCount : Nat

/-- State::SaveState — push the current bytecode pointer onto the operand
stack (the stack object's top is then set from sp; the list already is the
stack contents). -/
def saveState (s : VMState) : VMState :=
  { s with stack := .retAddr s.bcp :: s.stack }

/-- State::RestoreState — pop the saved bytecode pointer back into `bcp`.
Popping a slot that is not a saved bytecode address would reinterpret the
bits; the model returns `none` there. -/
def restoreState (s : VMState) : Option VMState :=
  match s.stack with
  | .retAddr pc :: rest => some { s with bcp := pc, stack := rest }
  | _ => none

/-- Engine::CollectGarbage — SaveState, let the external collector
transform the heap, RestoreState.  The collector is the parameter `gc`;
per the spec, value identity of slots still on the stack is preserved
across a collection, so the stack list itself is not rewritten. -/
def collectGarbage (gc : Heap → Heap) (s : VMState) : VMState :=
  let saved := saveState s
  let collected : VMState :=
    { saved with heap := gc saved.heap, gcCount := saved.gcCount + 1 }
  match restoreState collected with
  | some s1 => s1
  | none => collected

/-- CollectGarbage touches only the heap and the collection counter: the
save/restore pair around the collection cancels out on the stack and bcp. -/
theorem collectGarbage_eq (gc : Heap → Heap) (s : VMState) :
    collectGarbage gc s = { s with heap := gc s.heap, gcCount := s.gcCount + 1 } :=
  rfl

/-- Result of an expression guarded by GC_AND_RETRY_ON_ALLOCATION_FAILURE:
the retry-after-gc sentinel, another failure sentinel (carrying a code), or
an ordinary object. -/
inductive Raw where
  | retryAfterGC
  | failure (code : Nat)
  | obj (o : Obj)
  deriving DecidableEq, Repr

/-- Outcome of executing one opcode body: re-dispatch the same opcode at an
unchanged bcp (the GC retry), fall through to the next dispatch, surrender
with a target-yield port, surrender with an uncaught exception, or hit a
condition the C++ code treats as impossible (failed cast / ASSERT). -/
inductive StepOut where
  | redispatch (s : VMState)
  | next (s : VMState)
  | targetYield (s : VMState) (port : Obj)
  | uncaughtException (s : VMState)
  | fatal

/-- GC_AND_RETRY_ON_ALLOCATION_FAILURE — if the guarded expression produced
the retry-after-gc sentinel, collect garbage and re-dispatch the same
opcode (neither sp nor bcp is advanced); otherwise run the rest of the
opcode body on the result. -/
def gcAndRetryOnAllocationFailure (gc : Heap → Heap) (exp : Raw)
    (s : VMState) (k : Raw → StepOut) : StepOut :=
  match exp with
  | .retryAfterGC => .redispatch (collectGarbage gc s)
  | r => k r

/-- Modelled from the spec: bytecode length of Allocate (bytecodes.h is not
among the sampled sources); an opcode is a 1-byte tag plus its operands,
here a 4-byte class index. -/
def kAllocateLength : Nat := 5

/-- Modelled from the spec: bytecode length of AllocateImmutable (1-byte
tag plus 4-byte class index). -/
def kAllocateImmutableLength : Nat := 5

/-- Modelled from the spec: bytecode length of AllocateImmutableUnfold
(1-byte tag plus 4-byte inline constant offset). -/
def kAllocateImmutableUnfoldLength : Nat := 5

/-- Modelled from the spec: bytecode length of AllocateBoxed (tag only). -/
def kAllocateBoxedLength : Nat := 1

/-- Modelled from the spec: bytecode length of InvokeNative (1-byte tag,
1-byte arity, 1-byte native index). -/
def kInvokeNativeLength : Nat := 3

/-- Modelled from the spec: bytecode length of InvokeNativeYield (same
layout as InvokeNative). -/
def kInvokeNativeYieldLength : Nat := 3

/-- Modelled from the spec: bytecode length of EnterNoSuchMethod (tag
only). -/
def kEnterNoSuchMethodLength : Nat := 1

/-- Field-filling loop shared by the Allocate opcodes:
`for (int i = fields - 1; i >= 0; --i) instance->SetInstanceField(i, Pop())`.
Returns the field array (index 0 first; the first value popped lands in the
last field) together with the remaining stack. -/
def popFields : Nat → List Obj → List Obj × List Obj
  | 0, st => ([], st)
  | n + 1, st =>
    let v := st.headI
    let r := popFields n st.tail
    (r.1 ++ [v], r.2)

/-- With enough operands on the stack, the field-filling loop stores the
topmost `n` slots in reverse push order and leaves the rest. -/
theorem popFields_eq : ∀ (n : Nat) (st : List Obj), n ≤ st.length →
    popFields n st = ((st.take n).reverse, st.drop n)
  | 0, _, _ => by simp [popFields]
  | n + 1, [], h => by simp at h
  | n + 1, v :: st, h => by
    have ih := popFields_eq n st (by simpa using h)
    simp [popFields, ih]

/-- Allocate opcode body.  The class is fetched from the program's class
array by the 4-byte operand; allocation is the external
Process::NewInstance, whose result for this attempt is `allocRes`.  On
success the instance fields are filled by popping in reverse order, the
instance is pushed, and bcp advances. -/
def allocateStep (gc : Heap → Heap) (p : Program) (index : Nat)
    (allocRes : Raw) (s : VMState) : StepOut :=
  let klass := p.class_at index
  gcAndRetryOnAllocationFailure gc allocRes s fun r =>
    match r with
    | .obj (.ref a) =>
      let filled := popFields klass.numFields s.stack
      .next { s with
        heap := fun x => if x = a then .inst klass.id filled.1 false else s.heap x,
        stack := .ref a :: filled.2,
        bcp := s.bcp + kAllocateLength }
    | _ => .fatal

/-- AllocateUnfold opcode body: the class comes from the inline-embedded
constant (ReadConstant) instead of the class array; afterwards identical to
Allocate (the source advances by kAllocateLength here as well). -/
def allocateUnfoldStep (gc : Heap → Heap) (klass : ClassInfo)
    (allocRes : Raw) (s : VMState) : StepOut :=
  gcAndRetryOnAllocationFailure gc allocRes s fun r =>
    match r with
    | .obj (.ref a) =>
      let filled := popFields klass.numFields s.stack
      .next { s with
        heap := fun x => if x = a then .inst klass.id filled.1 false else s.heap x,
        stack := .ref a :: filled.2,
        bcp := s.bcp + kAllocateLength }
    | _ => .fatal

/-- Modelled from the spec: Object::IsImmutable (object.h is not among the
sampled sources).  The value model carries an immutability bit: small
integers are immutable, an Instance carries its computed bit, Boxed cells
are mutable, and the remaining heap values (strings, doubles, large
integers) are immutable. -/
def isImmutable (h : Heap) : Obj → Bool
  | .smi _ => true
  | .retAddr _ => true
  | .ref a =>
    match h a with
    | .inst _ _ immut => immut
    | .boxed _ => false
    | _ => true

/-- Immutability scan of AllocateImmutable: every one of the topmost
`fields` operand slots must itself be immutable. -/
def computeImmutable (h : Heap) (st : List Obj) (fields : Nat) : Bool :=
  (List.range fields).all fun i => isImmutable h (st.getD i default)

/-- AllocateImmutable opcode body: scan the operands for immutability
before allocating, allocate with the computed bit, then fill fields as
Allocate does. -/
def allocateImmutableStep (gc : Heap → Heap) (p : Program) (index : Nat)
    (allocRes : Raw) (s : VMState) : StepOut :=
  let klass := p.class_at index
  let immut := computeImmutable s.heap s.stack klass.numFields
  gcAndRetryOnAllocationFailure gc allocRes s fun r =>
    match r with
    | .obj (.ref a) =>
      let filled := popFields klass.numFields s.stack
      .next { s with
        heap := fun x => if x = a then .inst klass.id filled.1 immut else s.heap x,
        stack := .ref a :: filled.2,
        bcp := s.bcp + kAllocateImmutableLength }
    | _ => .fatal

/-- AllocateImmutableUnfold opcode body: as AllocateImmutable with the
class taken from the inline constant. -/
def allocateImmutableUnfoldStep (gc : Heap → Heap) (klass : ClassInfo)
    (allocRes : Raw) (s : VMState) : StepOut :=
  let immut := computeImmutable s.heap s.stack klass.numFields
  gcAndRetryOnAllocationFailure gc allocRes s fun r =>
    match r with
    | .obj (.ref a) =>
      let filled := popFields klass.numFields s.stack
      .next { s with
        heap := fun x => if x = a then .inst klass.id filled.1 immut else s.heap x,
        stack := .ref a :: filled.2,
        bcp := s.bcp + kAllocateImmutableUnfoldLength }
    | _ => .fatal

/-- AllocateBoxed opcode body: read the value at the top of the stack, let
the external Process::NewBoxed wrap it (result is `allocRes`), and replace
the top of the stack with the boxed cell. -/
def allocateBoxedStep (gc : Heap → Heap) (allocRes : Raw) (s : VMState) :
    StepOut :=
  let value := s.stack.headI
  gcAndRetryOnAllocationFailure gc allocRes s fun r =>
    match r with
    | .obj (.ref a) =>
      .next { s with
        heap := fun x => if x = a then .boxed value else s.heap x,
        stack := .ref a :: s.stack.tail,
        bcp := s.bcp + kAllocateBoxedLength }
    | _ => .fatal

/-- InvokeNative opcode body.  The native's result for this attempt is
`res` (the native receives a pointer to the arguments on the stack and may
itself allocate, hence the GC retry guard).  A non-retry failure is wrapped
by Program::ObjectFromFailure, pushed, and execution continues at the next
opcode; a regular value pops the return address, drops the arguments and
pushes the result. -/
def invokeNativeStep (gc : Heap → Heap) (p : Program) (arity : Nat)
    (res : Raw) (s : VMState) : StepOut :=
  gcAndRetryOnAllocationFailure gc res s fun r =>
    match r with
    | .failure f =>
      .next { s with
        stack := p.objectFromFailure f :: s.stack,
        bcp := s.bcp + kInvokeNativeLength }
    | .obj result =>
      match s.stack with
      | .retAddr ra :: rest =>
        .next { s with bcp := ra, stack := result :: rest.drop arity }
      | _ => .fatal
    | .retryAfterGC => .fatal

/-- InvokeNativeYield opcode body.  As InvokeNative, except that after a
regular result the value pushed is null, and a non-null result is a Port
pointer: the engine saves state, checks the port is locked (the source
ASSERT, modelled as an explicit check), hands the port out and surrenders
with TargetYield. -/
def invokeNativeYieldStep (gc : Heap → Heap) (p : Program)
    (locked : Obj → Bool) (arity : Nat) (res : Raw) (s : VMState) : StepOut :=
  gcAndRetryOnAllocationFailure gc res s fun r =>
    match r with
    | .failure f =>
      .next { s with
        stack := p.objectFromFailure f :: s.stack,
        bcp := s.bcp + kInvokeNativeYieldLength }
    | .obj result =>
      match s.stack with
      | .retAddr ra :: rest =>
        let s1 : VMState :=
          { s with bcp := ra, stack := p.nullObj :: rest.drop arity }
        if result ≠ p.nullObj then
          if locked result then .targetYield (saveState s1) result
          else .fatal
        else .next s1
      | _ => .fatal
    | .retryAfterGC => .fatal

/-- Return opcode body: read the result from the top of the stack, drop
`locals` slots, pop the return address into bcp, drop `args` slots, push
the result. -/
def returnStep (locals args : Nat) (s : VMState) : Option VMState :=
  match s.stack.head? with
  | none => none
  | some result =>
    match s.stack.drop locals with
    | .retAddr ra :: rest =>
      some { s with bcp := ra, stack := result :: rest.drop args }
    | _ => none

/-- Throw opcode body.  The unwinder HandleThrow is external to the opcode
(its loop is modelled separately); its outcome for this throw is `unwind`:
`none` when no catch block exists (the engine then surrenders with
UncaughtException on the saved state), or the catch program counter and the
stack delta counted on a stack that includes the saved bcp.  On a found
catch block the engine restores state (popping the saved bcp), jumps to the
catch pc, drops `delta - 1` further slots and overwrites the top with the
exception. -/
def throwStep (unwind : Option (Nat × Nat)) (s : VMState) : Option StepOut :=
  match s.stack.head? with
  | none => none
  | some exception =>
    let saved := saveState s
    match unwind with
    | none => some (.uncaughtException saved)
    | some (catchBcp, delta) =>
      match restoreState saved with
      | none => none
      | some s1 =>
        let s2 : VMState := { s1 with bcp := catchBcp }
        match s2.stack.drop (delta - 1) with
        | _ :: rest => some (.next { s2 with stack := exception :: rest })
        | [] => none

/-! ## Method dispatch (InvokeMethod / InvokeMethodFast / InvokeMethodVtable) -/

/-- Class of a heap value, as HeapObject::get_class exposes it (classes of
the built-in kinds come from the program). -/
def classOf (p : Program) (hv : HeapVal) : Nat :=
  match hv with
  | .inst c _ _ => c
  | .boxed _ => p.boxedClassId
  | .double _ => p.doubleClassId
  | .largeInt _ => p.largeIntClassId
  | .plain c => c

/-- Receiver class id used by all three dispatch opcodes: the program's smi
class for a small integer, otherwise the heap object's class. -/
def receiverClassId (p : Program) (h : Heap) (recv : Obj) : Nat :=
  match recv with
  | .smi _ => p.smiClassId
  | .ref a => classOf p (h a)
  | .retAddr _ => 0

/-- Row of the InvokeMethodFast dispatch table: four words
`[lower_class_id, upper_class_id, _, function]`; the third word is not read
by the interpreter and is omitted.  Functions are identified by an index. -/
structure DispatchRow where
  lower : Int
  upper : Int
  target : Nat
  deriving DecidableEq, Repr

/-- Linear scan of the InvokeMethodFast opcode over the table rows starting
at offset 4 in steps of 4: a row is skipped while `class_id < lower` or
`class_id >= upper`; on the first matching row the function at row offset 3
is the target. -/
def scanDispatch : List DispatchRow → Int → Option Nat
  | [], _ => none
  | row :: rest, classId =>
    if classId < row.lower then scanDispatch rest classId
    else if row.upper ≤ classId then scanDispatch rest classId
    else some row.target

/-- Vtable entry `[stored_offset, _, function, _]`; only words 0 and 2 are
read by the interpreter. -/
structure VtEntry where
  stored : Int
  target : Nat
  deriving DecidableEq, Repr

/-- InvokeMethodVtable lookup: read `vtable[class_id + offset]`; when the
entry's stored offset differs from the selector's offset, fall back to
`vtable[0]`; the target is the chosen entry's function. -/
def vtableLookupTarget (vt : Nat → VtEntry) (classId offset : Nat) : Nat :=
  let entry := vt (classId + offset)
  let chosen := if entry.stored ≠ (offset : Int) then vt 0 else entry
  chosen.target

/-- Modelled from the spec: method resolution by class-hierarchy search
(lookup performed by Process::LookupEntrySlow; lookup_cache.h and process.h
are not among the sampled sources).  A class either responds to a selector,
yielding its method, or resolution falls through to the no-such-method
stub. -/
def methodResolve (responds : Nat → Nat → Bool) (method : Nat → Nat → Nat)
    (nsmStub : Nat) (classId selector : Nat) : Nat :=
  if responds classId selector then method classId selector else nsmStub

/-- Modelled from the spec: the InvokeMethod cache lookup
`process()->LookupEntry(receiver, selector)->target` — on a miss the slow
path performs the hierarchy search and writes the entry through, so the
cached target is the hierarchy resolution. -/
def lookupCacheTarget (responds : Nat → Nat → Bool) (method : Nat → Nat → Nat)
    (nsmStub : Nat) (classId selector : Nat) : Nat :=
  methodResolve responds method nsmStub classId selector

/-- Whatever function the linear scan finds is the resolution, provided
every table row covering this class id stores the resolution (the
table-construction contract for rows compiled from the call site). -/
theorem scanDispatch_agrees (rows : List DispatchRow) (classId : Int)
    (f target : Nat)
    (hagree : ∀ row ∈ rows, row.lower ≤ classId → classId < row.upper →
      row.target = target)
    (hfound : scanDispatch rows classId = some f) : f = target := by
  induction rows with
  | nil => simp [scanDispatch] at hfound
  | cons row rest ih =>
    by_cases h1 : classId < row.lower
    · exact ih (fun r hr hl hu => hagree r (List.mem_cons_of_mem _ hr) hl hu)
        (by simpa [scanDispatch, h1] using hfound)
    · by_cases h2 : row.upper ≤ classId
      · exact ih (fun r hr hl hu => hagree r (List.mem_cons_of_mem _ hr) hl hu)
          (by simpa [scanDispatch, h1, h2] using hfound)
      · have hrow := hagree row (List.mem_cons_self _ _)
          (le_of_not_lt h1) (lt_of_not_le h2)
        have hft : row.target = f := by
          have : some row.target = some f := by
            simpa [scanDispatch, h1, h2] using hfound
          exact Option.some.inj this
        omega

/-! ## Exception unwinding across coroutines (HandleThrow) -/

/-- Coroutine slice the unwinder touches: its stack slot (a heap reference,
or the null object once the coroutine is done) and its caller
back-reference (a coroutine id; a coroutine with no caller points at
itself, which is also how a finished coroutine is marked). -/
structure Coro where
  stackRef : Obj
  caller : Nat
  deriving DecidableEq, Repr

/-- Modelled from the spec: Coroutine::has_caller (coroutine accessors live
in object.h) — the caller back-reference is initially the coroutine itself
and is reset to itself when the coroutine is done, so a coroutine has a
caller iff the back-reference differs from the coroutine. -/
def hasCaller (c : Coro) (selfId : Nat) : Bool := c.caller ≠ selfId

/-- Observable output of the unwinder: the literal header line that
`printf("Uncaught exception:\n")` writes to stdout, the exception printed
by Object::Print (modelled from the spec, which routes it to stderr), and
the Session::UncaughtException notification. -/
inductive OutEvent where
  | stdoutHeader
  | stderrPrintException (exc : Obj)
  | sessionUncaught
  deriving DecidableEq, Repr

/-- Process state the unwinder walks: the coroutine table, the current
coroutine, the (external) stack walker's catch-block computation for the
stack of a given coroutine, the attached session, and the program's null
object. -/
structure UnwindEnv where
  coros : Nat → Coro
  current : Nat
  findCatch : Nat → Option (Nat × Nat)
  hasSession : Bool
  sessionDebugging : Bool
  nullObj : Obj

/-- Unwind one coroutine level: switch the process to the caller's stack
(Process::UpdateCoroutine), then null the abandoned coroutine's stack slot
and self-loop its caller pointer, marking it done. -/
def abandonCurrent (env : UnwindEnv) : UnwindEnv :=
  let cur := env.current
  let caller := (env.coros cur).caller
  { env with
    current := caller,
    coros := fun i =>
      if i = cur then { stackRef := env.nullObj, caller := cur }
      else env.coros i }

/-- Result of HandleThrow: a catch block (pc and stack delta), the NULL
return that makes the engine surrender with UncaughtException, or process
exit. -/
inductive ThrowOutcome where
  | caught (pc delta : Nat)
  | nullPc
  | exited (code : Nat)
  deriving DecidableEq, Repr

/-- HandleThrow — repeatedly ask the stack walker for a catch block in the
current coroutine's stack; on failure pop to the coroutine's caller
(marking the abandoned coroutine done) and retry; with no caller left,
print the exception, then either notify a debugging session and return
NULL, or exit(1).  The C++ loop is `while (true)`; `fuel` bounds the
recursion (the caller chain is finite). -/
def handleThrow (exc : Obj) : Nat → UnwindEnv →
    Option (ThrowOutcome × UnwindEnv × List OutEvent)
  | 0, _ => none
  | fuel + 1, env =>
    match env.findCatch env.current with
    | some (pc, delta) => some (.caught pc delta, env, [])
    | none =>
      if hasCaller (env.coros env.current) env.current then
        handleThrow exc fuel (abandonCurrent env)
      else
        let out := [OutEvent.stdoutHeader, OutEvent.stderrPrintException exc]
        if env.hasSession && env.sessionDebugging then
          some (.nullPc, env, out ++ [OutEvent.sessionUncaught])
        else
          some (.exited 1, env, out)

/-! ## No-such-method trampoline -/

/-- Readable slice of the bytecode memory: individual bytes (opcode tags)
and the 4-byte host-order operand reads of Utils::ReadInt32. -/
structure CodeMem where
  byteAt : Nat → Nat
  int32At : Nat → Int

/-- Classification of an opcode tag by Bytecode::IsInvokeFast,
IsInvokeVtable and IsInvokeNormal (bytecodes.h is an external
collaborator). -/
inductive OpClass where
  | invokeNormal
  | invokeFast
  | invokeVtable
  | other
  deriving DecidableEq, Repr

/-- Modelled from the spec: the selector bit fields of selectors.h
(Selector::ArityField, Selector::IdField, Selector::KindField and the
distinguished SETTER kind).  The exact bit layout is opaque; the decoders
are carried as functions. -/
structure SelectorEnc where
  arityOf : Int → Nat
  idOf : Int → Nat
  kindOf : Int → Nat
  setterKind : Nat

/-- EnterNoSuchMethod opcode body: the top of the stack is the saved return
address; the byte five before it is the original invoke opcode and the four
bytes before it are its operand.  For a Fast invoke the operand is a
dispatch-table index and the selector sits in the table at index + 1
(`tableSelAt`); for Vtable and normal invokes the operand is the selector
itself.  The opcode then pushes selector, receiver (found at
Local(arity + 1)), selector and advances. -/
def enterNoSuchMethodStep (enc : SelectorEnc) (code : CodeMem)
    (opClassOf : Nat → OpClass) (tableSelAt : Int → Int) (s : VMState) :
    Option VMState :=
  match s.stack.head? with
  | some (.retAddr ra) =>
    let opcode := code.byteAt (ra - 5)
    let selector : Int :=
      match opClassOf opcode with
      | .invokeFast => tableSelAt (code.int32At (ra - 4) + 1)
      | .invokeVtable => code.int32At (ra - 4)
      | .invokeNormal => code.int32At (ra - 4)
      | .other => code.int32At (ra - 4)
    let arity := enc.arityOf selector
    let receiver := s.stack.getD (arity + 1) default
    some { s with
      stack := .smi selector :: receiver :: .smi selector :: s.stack,
      bcp := s.bcp + kEnterNoSuchMethodLength }
  | _ => none

/-- ExitNoSuchMethod opcode body: pop the handler's result, pop the
selector, pop the return address into bcp; when the selector's kind is
SETTER the result is replaced by the assigned value still on the stack
(Local(0) after the pops); then drop arity + 1 slots and push the result. -/
def exitNoSuchMethodStep (enc : SelectorEnc) (s : VMState) : Option VMState :=
  match s.stack with
  | result :: .smi selector :: .retAddr ra :: rest =>
    let result2 :=
      if enc.kindOf selector = enc.setterKind then rest.headI else result
    let arity := enc.arityOf selector
    some { s with bcp := ra, stack := result2 :: rest.drop (arity + 1) }
  | _ => none

/-! ## HandleIdentical / IdenticalNonNumeric -/

/-- Core predicate of HandleIdentical: two Doubles are identical iff both
are NaN or they are IEEE-equal; two LargeIntegers compare by 64-bit value;
every other combination falls back to pointer equality of the tagged
words. -/
def handleIdenticalB (h : Heap) (l r : Obj) : Bool :=
  match l, r with
  | .ref a, .ref b =>
    match h a, h b with
    | .double lv, .double rv =>
      if fpIsNan lv && fpIsNan rv then true else fpEq lv rv
    | .largeInt lv, .largeInt rv => lv == rv
    | _, _ => decide (l = r)
  | _, _ => decide (l = r)

/-- IdenticalNonNumeric opcode comparison `Local(0) == Local(1)`: raw
pointer (tagged word) equality. -/
def identicalNonNumericB (l r : Obj) : Bool := decide (l = r)

/-! ## Foreign-function interface (ffi.cc) -/

/-- Two's-complement truncation of an integer to `w` bits: the bit pattern
a `w`-bit machine location holds after `v` is stored into it, as a natural
number below `2 ^ w`. -/
def wmod (w : Nat) (v : Int) : Nat := (v % ((2 : Int) ^ w)).toNat

/-- Signed reinterpretation of a `w`-bit pattern. -/
def toSigned (w : Nat) (n : Nat) : Int :=
  if n < 2 ^ (w - 1) then (n : Int) else (n : Int) - 2 ^ w

/-- Raw byte-addressed memory reached through foreign addresses; every cell
holds one byte. -/
def Mem : Type := Nat → Nat

/-- Memory update at one address. -/
def updMem (m : Mem) (a v : Nat) : Mem := fun x => if x = a then v else m x

/-- Little-endian store of the low `k` bytes of `v` at `addr`. -/
def storeBytes : Mem → Nat → Nat → Nat → Mem
  | m, _, 0, _ => m
  | m, addr, k + 1, v =>
    storeBytes (updMem m addr (v % 256)) (addr + 1) k (v / 256)

/-- Little-endian load of `k` bytes at `addr`. -/
def loadBytes : Mem → Nat → Nat → Nat
  | _, _, 0 => 0
  | m, addr, k + 1 => m addr + 256 * loadBytes m (addr + 1) k

/-- Storing bytes at `addr` and above leaves lower addresses untouched. -/
theorem storeBytes_below : ∀ (k : Nat) (m : Mem) (addr v x : Nat),
    x < addr → storeBytes m addr k v x = m x
  | 0, _, _, _, _, _ => rfl
  | k + 1, m, addr, v, x, hx => by
    have h2 : x < addr + 1 := Nat.lt_succ_of_lt hx
    rw [storeBytes, storeBytes_below k _ _ _ _ h2, updMem]
    simp [Nat.ne_of_lt hx]

/-- Reading back `k` freshly stored bytes yields the stored value modulo
`256 ^ k`. -/
theorem loadBytes_storeBytes : ∀ (k : Nat) (m : Mem) (addr v : Nat),
    loadBytes (storeBytes m addr k v) addr k = v % 256 ^ k
  | 0, _, _, _ => by simp [storeBytes, loadBytes, Nat.mod_one]
  | k + 1, m, addr, v => by
    rw [storeBytes, loadBytes]
    have hbelow : storeBytes (updMem m addr (v % 256)) (addr + 1) k (v / 256) addr
        = v % 256 := by
      rw [storeBytes_below k _ _ _ _ (Nat.lt_succ_self addr), updMem]
      simp
    rw [hbelow, loadBytes_storeBytes k]
    have hpow : (256 : Nat) ^ (k + 1) = 256 * 256 ^ k := by ring
    rw [hpow, Nat.mod_mul]

/-- DEFINE_FOREIGN_ACCESSORS setter body: `*address = AsForeignWord(value)`
stores the machine word truncated to the accessor's width (AsForeignWord,
from natives.h, converts the VM integer to the machine word carrying the
same value); the native then returns the value operand unchanged. -/
def foreignSetAcc (width : Nat) (m : Mem) (addr : Nat) (value : Int) :
    Mem × Int :=
  (storeBytes m addr (width / 8) (wmod width value), value)

/-- DEFINE_FOREIGN_ACCESSORS getter body: read the typed cell at the
address and hand it to Process::ToInteger; the stored pattern is
interpreted per the accessor's signedness and width. -/
def foreignGetAcc (signed : Bool) (width : Nat) (m : Mem) (addr : Nat) :
    Int :=
  let n := loadBytes m addr (width / 8)
  if signed then toSigned width n else (n : Int)

/-- NATIVE(ForeignGetInt8). -/
def ForeignGetInt8 : Mem → Nat → Int := foreignGetAcc true 8

/-- NATIVE(ForeignGetInt16). -/
def ForeignGetInt16 : Mem → Nat → Int := foreignGetAcc true 16

/-- NATIVE(ForeignGetInt32). -/
def ForeignGetInt32 : Mem → Nat → Int := foreignGetAcc true 32

/-- NATIVE(ForeignGetInt64). -/
def ForeignGetInt64 : Mem → Nat → Int := foreignGetAcc true 64

/-- NATIVE(ForeignGetUint8). -/
def ForeignGetUint8 : Mem → Nat → Int := foreignGetAcc false 8

/-- NATIVE(ForeignGetUint16). -/
def ForeignGetUint16 : Mem → Nat → Int := foreignGetAcc false 16

/-- NATIVE(ForeignGetUint32). -/
def ForeignGetUint32 : Mem → Nat → Int := foreignGetAcc false 32

/-- NATIVE(ForeignGetUint64). -/
def ForeignGetUint64 : Mem → Nat → Int := foreignGetAcc false 64

/-- NATIVE(ForeignSetInt8); assignment through a typed pointer truncates
identically for the signed and the unsigned variant of a width. -/
def ForeignSetInt8 : Mem → Nat → Int → Mem × Int := foreignSetAcc 8

/-- NATIVE(ForeignSetInt16). -/
def ForeignSetInt16 : Mem → Nat → Int → Mem × Int := foreignSetAcc 16

/-- NATIVE(ForeignSetInt32). -/
def ForeignSetInt32 : Mem → Nat → Int → Mem × Int := foreignSetAcc 32

/-- NATIVE(ForeignSetInt64). -/
def ForeignSetInt64 : Mem → Nat → Int → Mem × Int := foreignSetAcc 64

/-- NATIVE(ForeignSetUint8). -/
def ForeignSetUint8 : Mem → Nat → Int → Mem × Int := foreignSetAcc 8

/-- NATIVE(ForeignSetUint16). -/
def ForeignSetUint16 : Mem → Nat → Int → Mem × Int := foreignSetAcc 16

/-- NATIVE(ForeignSetUint32). -/
def ForeignSetUint32 : Mem → Nat → Int → Mem × Int := foreignSetAcc 32

/-- NATIVE(ForeignSetUint64). -/
def ForeignSetUint64 : Mem → Nat → Int → Mem × Int := foreignSetAcc 64

/-- NATIVE(ForeignAllocate): `calloc(1, size)` — a zero-filled buffer of
`size` bytes at a fresh address `base` chosen by the (external) C
allocator; the native returns the buffer address as an integer. -/
def foreignAllocate (m : Mem) (base size : Nat) : Mem × Nat :=
  ((fun x => if base ≤ x ∧ x < base + size then 0 else m x), base)

/-- Value sitting in the 64-bit return register after the foreign callee
computed `v` (a register holds the value reduced to the machine word
width). -/
def word64 (v : Int) : Nat := wmod 64 v

/-- Receiving a foreign return value through the `int`-returning function
pointer types F0..F6 of ffi.cc: the low 32 bits of the return register,
reinterpreted as a signed 32-bit integer; Process::ToInteger then carries
that C `int` value into the VM unchanged. -/
def recvAsInt (reg : Nat) : Int := toSigned 32 (reg % 2 ^ 32)

/-- NATIVE(ForeignCall0): cast the address to `int (*)()` and call. -/
def ForeignCall0 (f : Unit → Int) : Int := recvAsInt (word64 (f ()))

/-- NATIVE(ForeignCall1): the argument is passed as a full machine word. -/
def ForeignCall1 (f : Int → Int) (a0 : Int) : Int := recvAsInt (word64 (f a0))

/-- NATIVE(ForeignCall2). -/
def ForeignCall2 (f : Int → Int → Int) (a0 a1 : Int) : Int :=
  recvAsInt (word64 (f a0 a1))

/-- NATIVE(ForeignCall3). -/
def ForeignCall3 (f : Int → Int → Int → Int) (a0 a1 a2 : Int) : Int :=
  recvAsInt (word64 (f a0 a1 a2))

/-- NATIVE(ForeignCall4). -/
def ForeignCall4 (f : Int → Int → Int → Int → Int) (a0 a1 a2 a3 : Int) :
    Int :=
  recvAsInt (word64 (f a0 a1 a2 a3))

/-- NATIVE(ForeignCall5). -/
def ForeignCall5 (f : Int → Int → Int → Int → Int → Int)
    (a0 a1 a2 a3 a4 : Int) : Int :=
  recvAsInt (word64 (f a0 a1 a2 a3 a4))

/-- NATIVE(ForeignCall6). -/
def ForeignCall6 (f : Int → Int → Int → Int → Int → Int → Int)
    (a0 a1 a2 a3 a4 a5 : Int) : Int :=
  recvAsInt (word64 (f a0 a1 a2 a3 a4 a5))

/-- Receiving any callee result through the C `int` return type lands in
the signed 32-bit range and is congruent to the callee's full result modulo
`2 ^ 32`. -/
theorem recvAsInt_word64 (v : Int) :
    -(2 ^ 31) ≤ recvAsInt (word64 v) ∧ recvAsInt (word64 v) < 2 ^ 31 ∧
      (recvAsInt (word64 v) - v) % 2 ^ 32 = 0 := by
  unfold recvAsInt word64 wmod toSigned
  have h64 : (0 : Int) < 2 ^ 64 := by positivity
  have hnn : 0 ≤ v % 2 ^ 64 := Int.emod_nonneg v (by positivity)
  have hlt : v % 2 ^ 64 < 2 ^ 64 := Int.emod_lt_of_pos v h64
  set n : Nat := (v % 2 ^ 64).toNat with hn
  have hcast : (n : Int) = v % 2 ^ 64 := Int.toNat_of_nonneg hnn
  have hm : ((n % 2 ^ 32 : Nat) : Int) = v % 2 ^ 32 := by
    push_cast
    rw [hcast]
    rw [Int.emod_emod_of_dvd]
    exact ⟨2 ^ 32, by norm_num⟩
  have hmlt : n % 2 ^ 32 < 2 ^ 32 := Nat.mod_lt _ (by positivity)
  have hmod : (v % 2 ^ 32 - v) % 2 ^ 32 = 0 := by
    simp [Int.sub_emod, Int.emod_emod_of_dvd]
  by_cases hc : n % 2 ^ 32 < 2 ^ (32 - 1)
  · refine ⟨?_, ?_, ?_⟩
    · simp only [hc, if_true]
      have h0 : (0 : Int) ≤ ((n % 2 ^ 32 : Nat) : Int) := Int.ofNat_nonneg _
      have hneg : -((2 : Int) ^ 31) ≤ 0 := by norm_num
      linarith
    · simp only [hc, if_true]
      exact_mod_cast Nat.lt_of_lt_of_le hc (by norm_num)
    · simp only [hc, if_true]
      rw [hm]
      exact hmod
  · refine ⟨?_, ?_, ?_⟩
    · simp only [hc, if_false]
      have : (2 : Int) ^ (31 : Nat) ≤ ((n % 2 ^ 32 : Nat) : Int) := by
        exact_mod_cast Nat.le_of_not_lt (by simpa using hc)
      norm_num at this ⊢
      omega
    · simp only [hc, if_false]
      have : ((n % 2 ^ 32 : Nat) : Int) < 2 ^ 32 := by exact_mod_cast hmlt
      norm_num at this ⊢
      omega
    · simp only [hc, if_false]
      rw [sub_right_comm, hm]
      rw [Int.sub_emod, hmod]
      simp

/-! ## Concrete instances used by the witnesses -/

/-- Heap with no object of interest, for concrete instantiations. -/
def demoHeap : Heap := fun _ => .plain 0

/-- Program with trivial singletons and a two-field class at every index,
for concrete instantiations. -/
def demoProg : Program :=
  { nullObj := .ref 0,
    trueObj := .ref 1,
    falseObj := .ref 2,
    smiClassId := 7,
    boxedClassId := 3,
    doubleClassId := 4,
    largeIntClassId := 5,
    objectFromFailure := fun f => .smi (Int.ofNat f),
    class_at := fun i => { id := i, numFields := 2 } }

/-- Concrete engine state for witnesses. -/
def demoState : VMState :=
  { bcp := 100,
    stack := [.smi 1, .smi 2, .retAddr 50, .smi 3],
    heap := demoHeap,
    gcCount := 0 }

/-! ## Claim theorems -/

/-- C1: for every allocating opcode (Allocate, AllocateUnfold,
AllocateImmutable, AllocateImmutableUnfold, AllocateBoxed, InvokeNative,
InvokeNativeYield), a retry-after-gc result makes the engine run a garbage
collection and re-dispatch the same opcode: the re-dispatch state has the
same bcp, the identical operand stack (depth and values), and one more
collection; the opcode's stack effect is applied only on a successful
allocation (shown for Allocate, which pops its fields and pushes the
instance only then). -/
theorem c1_gc_retry_preserves_operands
    (gc : Heap → Heap) (p : Program) (klass : ClassInfo)
    (locked : Obj → Bool) (index arity : Nat) (s : VMState)
    (hlen : (p.class_at index).numFields ≤ s.stack.length) :
    (allocateStep gc p index .retryAfterGC s
        = .redispatch (collectGarbage gc s)
      ∧ allocateUnfoldStep gc klass .retryAfterGC s
        = .redispatch (collectGarbage gc s)
      ∧ allocateImmutableStep gc p index .retryAfterGC s
        = .redispatch (collectGarbage gc s)
      ∧ allocateImmutableUnfoldStep gc klass .retryAfterGC s
        = .redispatch (collectGarbage gc s)
      ∧ allocateBoxedStep gc .retryAfterGC s
        = .redispatch (collectGarbage gc s)
      ∧ invokeNativeStep gc p arity .retryAfterGC s
        = .redispatch (collectGarbage gc s)
      ∧ invokeNativeYieldStep gc p locked arity .retryAfterGC s
        = .redispatch (collectGarbage gc s))
    ∧ ((collectGarbage gc s).stack = s.stack
      ∧ (collectGarbage gc s).bcp = s.bcp
      ∧ (collectGarbage gc s).gcCount = s.gcCount + 1)
    ∧ (∀ a : Nat, allocateStep gc p index (.obj (.ref a)) s
        = .next { s with
            heap := fun x => if x = a
              then .inst (p.class_at index).id
                ((s.stack.take (p.class_at index).numFields).reverse) false
              else s.heap x,
            stack := .ref a :: s.stack.drop (p.class_at index).numFields,
            bcp := s.bcp + kAllocateLength }) := by
  refine ⟨⟨rfl, rfl, rfl, rfl, rfl, rfl, rfl⟩, ⟨rfl, rfl, rfl⟩, ?_⟩
  intro a
  simp [allocateStep, gcAndRetryOnAllocationFailure, popFields_eq _ _ hlen]

/-- C1 witness: the stack-length hypothesis holds at the concrete state and
the theorem applies there. -/
theorem c1_gc_retry_preserves_operands_witness :
    (demoProg.class_at 0).numFields ≤ demoState.stack.length
    ∧ allocateStep (fun h => h) demoProg 0 .retryAfterGC demoState
        = .redispatch (collectGarbage (fun h => h) demoState) :=
  ⟨by decide,
   (c1_gc_retry_preserves_operands (fun h => h) demoProg ⟨0, 0⟩
      (fun _ => true) 0 1 demoState (by decide)).1.1⟩

/-- C3: Return with operands `locals` and `args` reads the result from the
top of the stack, drops `locals` slots, pops the return address into bcp,
drops `args` slots and pushes the result; the net depth change is
`-locals - args + 1` plus removal of the return address, and execution
resumes at the popped return address. -/
theorem c3_return_opcode (locals args : Nat) (s : VMState)
    (result : Obj) (ra : Nat) (rest : List Obj)
    (htop : s.stack.head? = some result)
    (hdrop : s.stack.drop locals = .retAddr ra :: rest)
    (hargs : args ≤ rest.length) :
    returnStep locals args s
      = some { s with bcp := ra, stack := result :: rest.drop args }
    ∧ (result :: rest.drop args).length + locals + args + 1
        = s.stack.length + 1 := by
  constructor
  · rw [returnStep, htop, hdrop]
  · have h1 : s.stack.length - locals = rest.length + 1 := by
      have := congrArg List.length hdrop
      simpa using this
    simp only [List.length_cons, List.length_drop]
    omega

/-- C3 witness: the stack-shape hypotheses hold at the concrete state and
the theorem applies there. -/
theorem c3_return_opcode_witness :
    demoState.stack.head? = some (.smi 1)
    ∧ demoState.stack.drop 2 = .retAddr 50 :: [.smi 3]
    ∧ returnStep 2 1 demoState
        = some { demoState with bcp := 50, stack := [.smi 1] } :=
  ⟨rfl, rfl,
   (c3_return_opcode 2 1 demoState (.smi 1) 50 [.smi 3] rfl rfl
      (by decide)).1⟩

/-- C4: when Throw finds a catch block, the engine saves state (pushing the
bcp), obtains the catch pc and stack delta from the unwinder, restores
state (popping the saved bcp), drops `stack_delta - 1` further slots, sets
the top of the stack to the thrown exception, and resumes at the catch pc;
the delta accounting is relative to the stack including the saved bcp. -/
theorem c4_throw_found_catch (s : VMState) (catchBcp delta : Nat)
    (exc : Obj) (rest : List Obj)
    (hstack : s.stack = exc :: rest)
    (hdelta : 1 ≤ delta)
    (hlen : delta - 1 < s.stack.length) :
    throwStep (some (catchBcp, delta)) s
      = some (.next { s with
          bcp := catchBcp,
          stack := exc :: (s.stack.drop (delta - 1)).tail })
    ∧ (exc :: (s.stack.drop (delta - 1)).tail).length + delta
        = (saveState s).stack.length := by
  obtain ⟨d, tl, hd⟩ : ∃ d tl, s.stack.drop (delta - 1) = d :: tl := by
    cases hdrop : s.stack.drop (delta - 1) with
    | nil =>
      exfalso
      have := congrArg List.length hdrop
      simp only [List.length_drop, List.length_nil] at this
      omega
    | cons d tl => exact ⟨d, tl, rfl⟩
  have hhead : s.stack.head? = some exc := by rw [hstack]; rfl
  constructor
  · simp only [throwStep, hhead, saveState, restoreState, hd]
    simp [hd]
  · rw [hd]
    have hlen2 : s.stack.length - (delta - 1) = tl.length + 1 := by
      have := congrArg List.length hd
      simpa using this
    simp only [saveState, List.length_cons, List.tail_cons]
    omega

/-- Concrete engine state for the C4 witness. -/
def c4s : VMState :=
  { bcp := 100,
    stack := [.smi 9, .smi 8, .retAddr 50],
    heap := demoHeap,
    gcCount := 0 }

/-- C4 witness: the hypotheses hold at the concrete state and the theorem
applies there. -/
theorem c4_throw_found_catch_witness :
    c4s.stack = .smi 9 :: [.smi 8, .retAddr 50]
    ∧ (1 : Nat) ≤ 2 ∧ 2 - 1 < c4s.stack.length
    ∧ throwStep (some (77, 2)) c4s
        = some (.next { c4s with
            bcp := 77,
            stack := .smi 9 :: (c4s.stack.drop (2 - 1)).tail }) :=
  ⟨rfl, by decide, by decide,
   (c4_throw_found_catch c4s 77 2 (.smi 9) [.smi 8, .retAddr 50] rfl
      (by decide) (by decide)).1⟩

/-- C7: when the InvokeNativeYield native returns a regular value the
engine pops the return address, drops `arity` slots and pushes null; a
non-null result is a Port: the engine saves state (so the saved stack holds
the saved bcp over a null top operand), hands the locked port out and
surrenders with TargetYield; a non-retry failure is wrapped via
ObjectFromFailure, pushed, and execution continues at the next opcode. -/
theorem c7_invoke_native_yield (gc : Heap → Heap) (p : Program)
    (locked : Obj → Bool) (arity : Nat) (s : VMState) (ra : Nat)
    (rest : List Obj)
    (hstack : s.stack = .retAddr ra :: rest) :
    (invokeNativeYieldStep gc p locked arity (.obj p.nullObj) s
      = .next { s with bcp := ra, stack := p.nullObj :: rest.drop arity })
    ∧ (∀ port : Obj, port ≠ p.nullObj → locked port = true →
        invokeNativeYieldStep gc p locked arity (.obj port) s
          = .targetYield
              { s with
                bcp := ra,
                stack := .retAddr ra :: p.nullObj :: rest.drop arity }
              port)
    ∧ (∀ f : Nat, invokeNativeYieldStep gc p locked arity (.failure f) s
        = .next { s with
            stack := p.objectFromFailure f :: s.stack,
            bcp := s.bcp + kInvokeNativeYieldLength }) := by
  refine ⟨?_, ?_, ?_⟩
  · simp [invokeNativeYieldStep, gcAndRetryOnAllocationFailure, hstack]
  · intro port hne hl
    simp [invokeNativeYieldStep, gcAndRetryOnAllocationFailure, hstack,
      hne, hl, saveState]
  · intro f
    simp [invokeNativeYieldStep, gcAndRetryOnAllocationFailure, hstack]

/-- Concrete engine state for the C7 witness. -/
def c7s : VMState :=
  { bcp := 100,
    stack := [.retAddr 50, .smi 1],
    heap := demoHeap,
    gcCount := 0 }

/-- C7 witness: the hypotheses hold at the concrete state and the theorem
applies there (target-yield branch with a locked port). -/
theorem c7_invoke_native_yield_witness :
    c7s.stack = .retAddr 50 :: [.smi 1]
    ∧ (Obj.smi 4 ≠ demoProg.nullObj)
    ∧ invokeNativeYieldStep (fun h => h) demoProg (fun _ => true) 1
        (.obj (.smi 4)) c7s
      = .targetYield
          { c7s with
            bcp := 50,
            stack := [.retAddr 50, demoProg.nullObj] }
          (.smi 4) := by
  refine ⟨rfl, by decide, ?_⟩
  have h := ((c7_invoke_native_yield (fun h => h) demoProg (fun _ => true) 1
      c7s 50 [.smi 1] rfl).2.1) (.smi 4) (by decide) rfl
  simpa using h

/-- C2: under the table-construction contract for a call site (every
dispatch-table row covering the receiver's class id stores the hierarchy
resolution and some row matches; the vtable entry at class id + offset
carries the method with the matching stored offset exactly when the class
responds, and `vtable[0]` is the catch-all stub), the cache lookup of
InvokeMethod, the linear scan of InvokeMethodFast, and the vtable lookup of
InvokeMethodVtable all yield the same target Function, and a small-integer
receiver uses the program's smi class. -/
theorem c2_dispatch_strategies_agree
    (p : Program) (h : Heap) (recv : Obj)
    (responds : Nat → Nat → Bool) (method : Nat → Nat → Nat) (nsmStub : Nat)
    (rows : List DispatchRow) (vt : Nat → VtEntry) (selector offset : Nat)
    (hagree : ∀ row ∈ rows,
      row.lower ≤ (receiverClassId p h recv : Int) →
      (receiverClassId p h recv : Int) < row.upper →
      row.target
        = methodResolve responds method nsmStub
            (receiverClassId p h recv) selector)
    (hcover : (scanDispatch rows (receiverClassId p h recv)).isSome = true)
    (hvt1 : responds (receiverClassId p h recv) selector = true →
      vt (receiverClassId p h recv + offset)
        = ⟨(offset : Int), method (receiverClassId p h recv) selector⟩)
    (hvt2 : responds (receiverClassId p h recv) selector = false →
      (vt (receiverClassId p h recv + offset)).stored ≠ (offset : Int))
    (hvt0 : (vt 0).target = nsmStub) :
    scanDispatch rows (receiverClassId p h recv)
      = some (lookupCacheTarget responds method nsmStub
          (receiverClassId p h recv) selector)
    ∧ vtableLookupTarget vt (receiverClassId p h recv) offset
      = lookupCacheTarget responds method nsmStub
          (receiverClassId p h recv) selector
    ∧ ∀ i : Int, recv = .smi i →
        receiverClassId p h recv = p.smiClassId := by
  refine ⟨?_, ?_, ?_⟩
  · obtain ⟨f, hf⟩ := Option.isSome_iff_exists.mp hcover
    rw [hf, scanDispatch_agrees rows _ f _ hagree hf]
    rfl
  · unfold vtableLookupTarget lookupCacheTarget methodResolve
    by_cases hr : responds (receiverClassId p h recv) selector = true
    · simp [hvt1 hr, hr]
    · have hr2 : responds (receiverClassId p h recv) selector = false := by
        simpa using hr
      simp [hvt2 hr2, hr2, hvt0]
  · intro i hi
    subst hi
    rfl

/-- Dispatch-table rows for the C2 witness: class id 7 responds (target
function 10); the neighbouring rows carry the catch-all stub 9. -/
def demoRows : List DispatchRow := [⟨0, 7, 9⟩, ⟨7, 8, 10⟩, ⟨8, 1000, 9⟩]

/-- Vtable for the C2 witness: entry 9 = class 7 + offset 2 stores
offset 2 and function 10; everything else misses, and entry 0 is the
catch-all stub 9. -/
def demoVt : Nat → VtEntry := fun i => if i = 9 then ⟨2, 10⟩ else ⟨-1, 9⟩

/-- Responds predicate for the C2 witness. -/
def demoResponds : Nat → Nat → Bool := fun c s => c == 7 && s == 3

/-- Method table for the C2 witness. -/
def demoMethod : Nat → Nat → Nat := fun _ _ => 10

/-- C2 witness: the contract hypotheses hold for the concrete tables and
the theorem applies to a small-integer receiver of class 7. -/
theorem c2_dispatch_strategies_agree_witness :
    (scanDispatch demoRows
        (receiverClassId demoProg demoHeap (.smi 5))).isSome = true
    ∧ scanDispatch demoRows (receiverClassId demoProg demoHeap (.smi 5))
        = some (lookupCacheTarget demoResponds demoMethod 9
            (receiverClassId demoProg demoHeap (.smi 5)) 3)
    ∧ vtableLookupTarget demoVt
          (receiverClassId demoProg demoHeap (.smi 5)) 2
        = lookupCacheTarget demoResponds demoMethod 9
            (receiverClassId demoProg demoHeap (.smi 5)) 3 := by
  have h := c2_dispatch_strategies_agree demoProg demoHeap (.smi 5)
    demoResponds demoMethod 9 demoRows demoVt 3 2
    (by decide) (by decide) (by decide) (by decide) (by decide)
  exact ⟨by decide, h.1, h.2.1⟩

/-- C5: when unwinding finds no catch block in the current coroutine's
stack, then (a) with a caller, the unwinder switches the process to the
caller, nulls the abandoned coroutine's stack slot, self-loops its caller
pointer and retries in the caller; (b) with no caller and a debugging
session, it records the uncaught exception and returns NULL — and a NULL
unwinder result makes the Throw opcode surrender with UncaughtException;
(c) with no caller and no debugging session the exception is printed (the
header on stdout, the exception via Print) and the process exits with the
nonzero code 1. -/
theorem c5_unwinding_without_catch (exc : Obj) (fuel : Nat)
    (env : UnwindEnv) (s : VMState)
    (hmiss : env.findCatch env.current = none) :
    ((env.coros env.current).caller ≠ env.current →
      handleThrow exc (fuel + 1) env
          = handleThrow exc fuel (abandonCurrent env)
        ∧ (abandonCurrent env).current = (env.coros env.current).caller
        ∧ ((abandonCurrent env).coros env.current).stackRef = env.nullObj
        ∧ ((abandonCurrent env).coros env.current).caller = env.current)
    ∧ ((env.coros env.current).caller = env.current →
        env.hasSession = true → env.sessionDebugging = true →
        handleThrow exc (fuel + 1) env
          = some (.nullPc, env,
              [.stdoutHeader, .stderrPrintException exc, .sessionUncaught]))
    ∧ ((env.coros env.current).caller = env.current →
        (env.hasSession && env.sessionDebugging) = false →
        handleThrow exc (fuel + 1) env
            = some (.exited 1, env,
                [.stdoutHeader, .stderrPrintException exc])
          ∧ (1 : Nat) ≠ 0)
    ∧ (∀ (e : Obj) (rest : List Obj), s.stack = e :: rest →
        throwStep none s = some (.uncaughtException (saveState s))) := by
  refine ⟨?_, ?_, ?_, ?_⟩
  · intro hc
    have hb : hasCaller (env.coros env.current) env.current = true := by
      simp [hasCaller, hc]
    refine ⟨?_, rfl, ?_, ?_⟩
    · simp only [handleThrow, hmiss, hb, if_true]
    · simp [abandonCurrent]
    · simp [abandonCurrent]
  · intro hc hs hd
    have hb : hasCaller (env.coros env.current) env.current = false := by
      simp [hasCaller, hc]
    simp [handleThrow, hmiss, hb, hs, hd]
  · intro hc hsd
    have hb : hasCaller (env.coros env.current) env.current = false := by
      simp [hasCaller, hc]
    exact ⟨by simp [handleThrow, hmiss, hb, hsd], by decide⟩
  · intro e rest hs2
    have : s.stack.head? = some e := by rw [hs2]; rfl
    simp [throwStep, this]

/-- Two-coroutine process for the C5 witness: coroutine 1 is current, its
caller is coroutine 0, and no stack has a catch block. -/
def c5env : UnwindEnv :=
  { coros := fun i =>
      if i = 1 then { stackRef := .ref 10, caller := 0 }
      else { stackRef := .ref 11, caller := 0 },
    current := 1,
    findCatch := fun _ => none,
    hasSession := false,
    sessionDebugging := false,
    nullObj := .ref 0 }

/-- C5 witness: the no-catch hypothesis holds for the concrete process and
the theorem's caller-switch branch applies. -/
theorem c5_unwinding_without_catch_witness :
    c5env.findCatch c5env.current = none
    ∧ handleThrow (.ref 42) 2 c5env
        = handleThrow (.ref 42) 1 (abandonCurrent c5env)
    ∧ ((abandonCurrent c5env).coros c5env.current).stackRef = c5env.nullObj
    ∧ ((abandonCurrent c5env).coros c5env.current).caller = c5env.current := by
  have h := (c5_unwinding_without_catch (.ref 42) 1 c5env demoState rfl).1
    (by decide)
  exact ⟨rfl, h.1, h.2.2.1, h.2.2.2⟩

/-- C6: EnterNoSuchMethod reads the byte five before the saved return
address (the original invoke opcode) and the four bytes before it (the
operand); the selector is the dispatch-table word at operand + 1 for a Fast
invoke and the operand itself for Vtable and normal invokes; the opcode
pushes selector, receiver, selector.  ExitNoSuchMethod pops the result,
the selector and the return address into bcp, drops arity + 1 slots and
pushes the result — except that for a SETTER selector the assigned value
still on the stack is pushed instead. -/
theorem c6_no_such_method_trampoline (enc : SelectorEnc) (code : CodeMem)
    (opClassOf : Nat → OpClass) (tableSelAt : Int → Int) (s : VMState)
    (ra : Nat) (rest : List Obj)
    (hstack : s.stack = .retAddr ra :: rest) :
    (opClassOf (code.byteAt (ra - 5)) = .invokeFast →
      enterNoSuchMethodStep enc code opClassOf tableSelAt s
        = some { s with
            stack := .smi (tableSelAt (code.int32At (ra - 4) + 1))
              :: s.stack.getD
                  (enc.arityOf (tableSelAt (code.int32At (ra - 4) + 1)) + 1)
                  default
              :: .smi (tableSelAt (code.int32At (ra - 4) + 1))
              :: s.stack,
            bcp := s.bcp + kEnterNoSuchMethodLength })
    ∧ ((opClassOf (code.byteAt (ra - 5)) = .invokeVtable ∨
        opClassOf (code.byteAt (ra - 5)) = .invokeNormal) →
      enterNoSuchMethodStep enc code opClassOf tableSelAt s
        = some { s with
            stack := .smi (code.int32At (ra - 4))
              :: s.stack.getD (enc.arityOf (code.int32At (ra - 4)) + 1)
                  default
              :: .smi (code.int32At (ra - 4))
              :: s.stack,
            bcp := s.bcp + kEnterNoSuchMethodLength })
    ∧ (∀ (result : Obj) (selector : Int) (ra2 : Nat) (rest2 : List Obj),
        enc.kindOf selector ≠ enc.setterKind →
        exitNoSuchMethodStep enc
            { s with
              stack := result :: .smi selector :: .retAddr ra2 :: rest2 }
          = some { s with
              bcp := ra2,
              stack := result :: rest2.drop (enc.arityOf selector + 1) })
    ∧ (∀ (result : Obj) (selector : Int) (ra2 : Nat) (rest2 : List Obj),
        enc.kindOf selector = enc.setterKind →
        exitNoSuchMethodStep enc
            { s with
              stack := result :: .smi selector :: .retAddr ra2 :: rest2 }
          = some { s with
              bcp := ra2,
              stack := rest2.headI
                :: rest2.drop (enc.arityOf selector + 1) }) := by
  have hhead : s.stack.head? = some (.retAddr ra) := by rw [hstack]; rfl
  refine ⟨?_, ?_, ?_, ?_⟩
  · intro hcl
    simp [enterNoSuchMethodStep, hhead, hcl]
  · rintro (hcl | hcl) <;> simp [enterNoSuchMethodStep, hhead, hcl]
  · intro result selector ra2 rest2 hkind
    simp [exitNoSuchMethodStep, hkind]
  · intro result selector ra2 rest2 hkind
    simp [exitNoSuchMethodStep, hkind]

/-- Selector encoding for the C6 witness: arity in the low two bits of the
value, kind in the next bit, SETTER kind 1. -/
def c6enc : SelectorEnc :=
  { arityOf := fun s => s.toNat % 4,
    idOf := fun s => s.toNat / 8,
    kindOf := fun s => s.toNat / 4 % 2,
    setterKind := 1 }

/-- Bytecode memory for the C6 witness: every byte reads 11 (a Fast invoke
tag) and every int32 operand reads 8. -/
def c6code : CodeMem := { byteAt := fun _ => 11, int32At := fun _ => 8 }

/-- Opcode classification for the C6 witness. -/
def c6ops : Nat → OpClass := fun b => if b = 11 then .invokeFast else .invokeNormal

/-- Dispatch-table selector fetch for the C6 witness: every entry holds the
selector 12 (arity 0). -/
def c6tab : Int → Int := fun _ => 12

/-- Engine state for the C6 witness. -/
def c6s : VMState :=
  { bcp := 200,
    stack := [.retAddr 60, .smi 5, .smi 6],
    heap := demoHeap,
    gcCount := 0 }

/-- C6 witness: the stack-shape and opcode-class hypotheses hold at the
concrete state and the Fast branch of the theorem applies. -/
theorem c6_no_such_method_trampoline_witness :
    c6s.stack = .retAddr 60 :: [.smi 5, .smi 6]
    ∧ c6ops (c6code.byteAt (60 - 5)) = .invokeFast
    ∧ enterNoSuchMethodStep c6enc c6code c6ops c6tab c6s
        = some { c6s with
            stack := .smi (c6tab (c6code.int32At (60 - 4) + 1))
              :: c6s.stack.getD
                  (c6enc.arityOf (c6tab (c6code.int32At (60 - 4) + 1)) + 1)
                  default
              :: .smi (c6tab (c6code.int32At (60 - 4) + 1))
              :: c6s.stack,
            bcp := c6s.bcp + kEnterNoSuchMethodLength } :=
  ⟨rfl, by decide,
   (c6_no_such_method_trampoline c6enc c6code c6ops c6tab c6s 60
      [.smi 5, .smi 6] rfl).1 (by decide)⟩

/-- C8: Identical on two Doubles returns true iff both are NaN or they are
IEEE-equal (so NaN with NaN and +0.0 with -0.0 are identical); on two
LargeIntegers it compares 64-bit values; on mixed or other kinds it falls
back to pointer equality; IdenticalNonNumeric is pointer equality, so two
distinct NaN Double objects are not IdenticalNonNumeric. -/
theorem c8_identical_semantics :
    (∀ (h : Heap) (a b : Nat) (x y : FP),
      h a = .double x → h b = .double y →
      handleIdenticalB h (.ref a) (.ref b)
        = (if fpIsNan x && fpIsNan y then true else fpEq x y))
    ∧ (∀ (h : Heap) (a b : Nat) (x y : Int),
      h a = .largeInt x → h b = .largeInt y →
      handleIdenticalB h (.ref a) (.ref b) = (x == y))
    ∧ (∀ (h : Heap) (a b : Nat) (x : FP) (y : Int),
      h a = .double x → h b = .largeInt y →
      handleIdenticalB h (.ref a) (.ref b) = decide (a = b))
    ∧ (∀ l r : Obj, identicalNonNumericB l r = decide (l = r))
    ∧ (∀ (h : Heap) (a b : Nat), a ≠ b →
      h a = .double .nan → h b = .double .nan →
      handleIdenticalB h (.ref a) (.ref b) = true
        ∧ identicalNonNumericB (.ref a) (.ref b) = false)
    ∧ (∀ (h : Heap) (a b : Nat),
      h a = .double (.zero false) → h b = .double (.zero true) →
      handleIdenticalB h (.ref a) (.ref b) = true) := by
  refine ⟨?_, ?_, ?_, fun l r => rfl, ?_, ?_⟩
  · intro h a b x y ha hb
    simp [handleIdenticalB, ha, hb]
  · intro h a b x y ha hb
    simp [handleIdenticalB, ha, hb]
  · intro h a b x y ha hb
    simp [handleIdenticalB, ha, hb]
  · intro h a b hab ha hb
    refine ⟨by simp [handleIdenticalB, ha, hb, fpIsNan], ?_⟩
    simp [identicalNonNumericB, hab]
  · intro h a b ha hb
    simp [handleIdenticalB, ha, hb, fpIsNan, fpEq]

/-- Heap for the C8 witness: two distinct NaN Double objects. -/
def c8heap : Heap := fun a =>
  if a = 1 then .double .nan else if a = 2 then .double .nan else .plain 0

/-- C8 witness: the heap hypotheses hold concretely, and the theorem gives
Identical true but IdenticalNonNumeric false on the two distinct NaN
objects. -/
theorem c8_identical_semantics_witness :
    (1 : Nat) ≠ 2
    ∧ c8heap 1 = .double .nan
    ∧ c8heap 2 = .double .nan
    ∧ handleIdenticalB c8heap (.ref 1) (.ref 2) = true
    ∧ identicalNonNumericB (.ref 1) (.ref 2) = false := by
  have h := c8_identical_semantics.2.2.2.2.1 c8heap 1 2 (by decide) rfl rfl
  exact ⟨by decide, rfl, rfl, h.1, h.2⟩

/-- Truncating an integer to `w` bits lands below `2 ^ w`. -/
theorem wmod_lt (w : Nat) (v : Int) : wmod w v < 2 ^ w := by
  unfold wmod
  have hpos : (0 : Int) < (2 : Int) ^ w := by positivity
  have h1 : v % (2 : Int) ^ w < (2 : Int) ^ w := Int.emod_lt_of_pos v hpos
  have h2 : (0 : Int) ≤ v % (2 : Int) ^ w :=
    Int.emod_nonneg v (ne_of_gt hpos)
  have hcast : ((2 : Int) ^ w) = ((2 ^ w : Nat) : Int) := by push_cast; ring
  rw [hcast] at h1 h2
  omega

/-- C9: for any supported width and signedness, ForeignGet immediately
after ForeignSet at the same address returns the stored value reinterpreted
at that width, and ForeignSet returns the value operand; in particular
ForeignSetInt32 of -1 into a ForeignAllocate(8) buffer followed by
ForeignGetInt32 yields -1. -/
theorem c9_foreign_accessor_roundtrip (w : Nat)
    (hw : w = 8 ∨ w = 16 ∨ w = 32 ∨ w = 64)
    (signed : Bool) (m : Mem) (addr : Nat) (v : Int) :
    foreignGetAcc signed w (foreignSetAcc w m addr v).1 addr
      = (if signed then toSigned w (wmod w v) else (wmod w v : Int))
    ∧ (foreignSetAcc w m addr v).2 = v
    ∧ ForeignGetInt32
        (ForeignSetInt32 (foreignAllocate m addr 8).1 addr (-1)).1 addr
      = -1 := by
  have key : ∀ (m2 : Mem) (w2 k : Nat) (v2 : Int), 256 ^ k = 2 ^ w2 →
      loadBytes (storeBytes m2 addr k (wmod w2 v2)) addr k = wmod w2 v2 := by
    intro m2 w2 k v2 hk
    rw [loadBytes_storeBytes, hk, Nat.mod_eq_of_lt (wmod_lt w2 v2)]
  have hm1 : wmod 32 (-1) = 4294967295 := by decide
  have h32 : ForeignGetInt32
      (ForeignSetInt32 (foreignAllocate m addr 8).1 addr (-1)).1 addr
      = -1 := by
    show foreignGetAcc true 32
      (foreignSetAcc 32 (foreignAllocate m addr 8).1 addr (-1)).1 addr = -1
    simp only [foreignGetAcc, foreignSetAcc]
    rw [key _ 32 4 (-1) (by norm_num), hm1]
    norm_num [toSigned]
  refine ⟨?_, rfl, h32⟩
  rcases hw with h | h | h | h <;> subst h <;>
    simp only [foreignGetAcc, foreignSetAcc] <;>
    rw [key _ _ _ _ (by norm_num)]

/-- C9 witness: the width hypothesis holds at 32 bits and the theorem
applies with the signed accessor and value -1. -/
theorem c9_foreign_accessor_roundtrip_witness :
    ((32 : Nat) = 8 ∨ (32 : Nat) = 16 ∨ (32 : Nat) = 32 ∨ (32 : Nat) = 64)
    ∧ foreignGetAcc true 32 (foreignSetAcc 32 (fun _ => 0) 0 (-1)).1 0
        = toSigned 32 (wmod 32 (-1)) := by
  have h :=
    (c9_foreign_accessor_roundtrip 32 (by decide) true (fun _ => 0) 0 (-1)).1
  exact ⟨by decide, by simpa using h⟩

/-- C10: every ForeignCall0..ForeignCall6 receives the foreign function's
result through a function-pointer type returning a C int, so the result is
reduced to the signed 32-bit range while staying congruent to the callee's
full result modulo 2^32 — a callee returning 2^32 yields 0 — whereas the
arguments are passed at full machine-word width: a callee can observe bits
of an argument above bit 31. -/
theorem c10_foreign_call_int_result :
    (∀ f : Unit → Int,
      -(2 ^ 31) ≤ ForeignCall0 f ∧ ForeignCall0 f < 2 ^ 31
        ∧ (ForeignCall0 f - f ()) % 2 ^ 32 = 0)
    ∧ (∀ (f : Int → Int) (a0 : Int),
      -(2 ^ 31) ≤ ForeignCall1 f a0 ∧ ForeignCall1 f a0 < 2 ^ 31
        ∧ (ForeignCall1 f a0 - f a0) % 2 ^ 32 = 0)
    ∧ (∀ (f : Int → Int → Int) (a0 a1 : Int),
      -(2 ^ 31) ≤ ForeignCall2 f a0 a1 ∧ ForeignCall2 f a0 a1 < 2 ^ 31
        ∧ (ForeignCall2 f a0 a1 - f a0 a1) % 2 ^ 32 = 0)
    ∧ (∀ (f : Int → Int → Int → Int) (a0 a1 a2 : Int),
      -(2 ^ 31) ≤ ForeignCall3 f a0 a1 a2
        ∧ ForeignCall3 f a0 a1 a2 < 2 ^ 31
        ∧ (ForeignCall3 f a0 a1 a2 - f a0 a1 a2) % 2 ^ 32 = 0)
    ∧ (∀ (f : Int → Int → Int → Int → Int) (a0 a1 a2 a3 : Int),
      -(2 ^ 31) ≤ ForeignCall4 f a0 a1 a2 a3
        ∧ ForeignCall4 f a0 a1 a2 a3 < 2 ^ 31
        ∧ (ForeignCall4 f a0 a1 a2 a3 - f a0 a1 a2 a3) % 2 ^ 32 = 0)
    ∧ (∀ (f : Int → Int → Int → Int → Int → Int) (a0 a1 a2 a3 a4 : Int),
      -(2 ^ 31) ≤ ForeignCall5 f a0 a1 a2 a3 a4
        ∧ ForeignCall5 f a0 a1 a2 a3 a4 < 2 ^ 31
        ∧ (ForeignCall5 f a0 a1 a2 a3 a4 - f a0 a1 a2 a3 a4) % 2 ^ 32 = 0)
    ∧ (∀ (f : Int → Int → Int → Int → Int → Int → Int)
        (a0 a1 a2 a3 a4 a5 : Int),
      -(2 ^ 31) ≤ ForeignCall6 f a0 a1 a2 a3 a4 a5
        ∧ ForeignCall6 f a0 a1 a2 a3 a4 a5 < 2 ^ 31
        ∧ (ForeignCall6 f a0 a1 a2 a3 a4 a5 - f a0 a1 a2 a3 a4 a5)
            % 2 ^ 32 = 0)
    ∧ ForeignCall0 (fun _ => 2 ^ 32) = 0
    ∧ ForeignCall1 (fun x => x / 2 ^ 32) (2 ^ 40) = 2 ^ 8 := by
  refine ⟨fun f => recvAsInt_word64 (f ()),
    fun f a0 => recvAsInt_word64 (f a0),
    fun f a0 a1 => recvAsInt_word64 (f a0 a1),
    fun f a0 a1 a2 => recvAsInt_word64 (f a0 a1 a2),
    fun f a0 a1 a2 a3 => recvAsInt_word64 (f a0 a1 a2 a3),
    fun f a0 a1 a2 a3 a4 => recvAsInt_word64 (f a0 a1 a2 a3 a4),
    fun f a0 a1 a2 a3 a4 a5 => recvAsInt_word64 (f a0 a1 a2 a3 a4 a5),
    ?_, ?_⟩
  · decide
  · decide

end Fletch
